import Mathlib

/-!
Verification development for the GitHub runner log extractor
(`src/logextractor.py`).  Python strings are modelled as Lean `String`
(lists of characters), Python `dict`/`list`/scalars as a `JsonVal` tree,
and every fallible Python operation (KeyError, IndexError, TypeError,
ValueError, JSONDecodeError crash paths) as `Option`, with `none`
standing for an uncaught exception.
-/

namespace LogExtractor

/-! ### Python string primitives -/

/-- The whitespace characters stripped by Python `str.strip()` (ASCII part). -/
def isPyWs (c : Char) : Bool :=
  c = ' ' || c = '\t' || c = '\n' || c = '\r' || c = '\x0b' || c = '\x0c'

/-- Strip leading and trailing whitespace from a character list. -/
def stripList (cs : List Char) : List Char :=
  ((cs.dropWhile isPyWs).reverse.dropWhile isPyWs).reverse

/-- Python `line.strip()`. -/
def pyStrip (s : String) : String := ⟨stripList s.data⟩

/-- Python `s.startswith(pre)`. -/
def strStartsWith (s pre : String) : Bool := pre.data.isPrefixOf s.data

/-- Python `s.endswith(suf)`. -/
def strEndsWith (s suf : String) : Bool := suf.data.isSuffixOf s.data

/-! ### The two marker regexes

`JOB_MESSAGE_PATTERN = re.compile(r'\[.*? INFO Worker\] Job message:.*')`
`ACTION_MESSAGE_PATTERN = re.compile(r'\[.*? INFO ExecutionContext\] Publish step telemetry for current step \{')`

Both have the shape `\[.*?LITERAL...`, searched anywhere in the line
(`re.search`).  Such a pattern matches iff the line contains a `[`
followed, after some non-newline characters, by the literal. -/

def jobLit : List Char := " INFO Worker] Job message:".data

def actionLit : List Char := " INFO ExecutionContext] Publish step telemetry for current step \x7b".data

/-- After a `[`, can `.*?` (non-newline) reach an occurrence of `lit`? -/
def searchAfterBracket (lit : List Char) : List Char → Bool
  | [] => lit.isPrefixOf ([] : List Char)
  | c :: rest => lit.isPrefixOf (c :: rest) || (c ≠ '\n' && searchAfterBracket lit rest)

/-- Substring occurrence (Python `sub in s` on strings). -/
def subOccurs (pat : List Char) : List Char → Bool
  | [] => pat.isPrefixOf ([] : List Char)
  | c :: rest => pat.isPrefixOf (c :: rest) || subOccurs pat rest

/-- `re.search` for a pattern of the form `\[.*?lit`. -/
def bracketSearch (lit : List Char) : List Char → Bool
  | [] => false
  | c :: rest => (c = '[' && searchAfterBracket lit rest) || bracketSearch lit rest

/-- `Constants.JOB_MESSAGE_PATTERN.search(line)` as a Boolean. -/
def jobMessageMatch (line : String) : Bool := bracketSearch jobLit line.data

/-- `Constants.ACTION_MESSAGE_PATTERN.search(line)` as a Boolean. -/
def actionMessageMatch (line : String) : Bool := bracketSearch actionLit line.data

/-- `Constants.ACCESS_TOKEN_PATTERN`. -/
def accessTokenPat : String := "\"AccessToken\""

/-! ### JSON values -/

/-- A parsed JSON tree: the result of `json.loads`.  Numbers are kept
exactly as rationals (the claims only involve small integers). -/
inductive JsonVal where
  | null : JsonVal
  | bool (b : Bool) : JsonVal
  | num (q : ℚ) : JsonVal
  | str (s : String) : JsonVal
  | arr (xs : List JsonVal) : JsonVal
  | obj (kvs : List (String × JsonVal)) : JsonVal

mutual

/-- Structural equality of JSON values (Python `==` on parsed trees). -/
def beqJson : JsonVal → JsonVal → Bool
  | .null, .null => true
  | .bool a, .bool b => a == b
  | .num a, .num b => decide (a = b)
  | .str a, .str b => a == b
  | .arr xs, .arr ys => beqJsonArr xs ys
  | .obj xs, .obj ys => beqJsonObj xs ys
  | _, _ => false

def beqJsonArr : List JsonVal → List JsonVal → Bool
  | [], [] => true
  | x :: xs, y :: ys => beqJson x y && beqJsonArr xs ys
  | _, _ => false

def beqJsonObj : List (String × JsonVal) → List (String × JsonVal) → Bool
  | [], [] => true
  | (k1, v1) :: xs, (k2, v2) :: ys => k1 == k2 && beqJson v1 v2 && beqJsonObj xs ys
  | _, _ => false

end

instance : BEq JsonVal := ⟨beqJson⟩

mutual

theorem beqJson_refl : (a : JsonVal) → beqJson a a = true
  | .null => rfl
  | .bool b => by simp [beqJson]
  | .num q => by simp [beqJson]
  | .str s => by simp [beqJson]
  | .arr xs => by simpa [beqJson] using beqJsonArr_refl xs
  | .obj xs => by simpa [beqJson] using beqJsonObj_refl xs

theorem beqJsonArr_refl : (xs : List JsonVal) → beqJsonArr xs xs = true
  | [] => rfl
  | x :: xs => by simp [beqJsonArr, beqJson_refl x, beqJsonArr_refl xs]

theorem beqJsonObj_refl : (xs : List (String × JsonVal)) → beqJsonObj xs xs = true
  | [] => rfl
  | (k, v) :: xs => by simp [beqJsonObj, beqJson_refl v, beqJsonObj_refl xs]

end

mutual

theorem eq_of_beqJson : (a b : JsonVal) → beqJson a b = true → a = b
  | .null, .null, _ => rfl
  | .bool x, .bool y, h => by simp [beqJson] at h; simp [h]
  | .num x, .num y, h => by simp [beqJson] at h; simp [h]
  | .str x, .str y, h => by simp [beqJson] at h; simp [h]
  | .arr xs, .arr ys, h => by
    have hh := eq_of_beqJsonArr xs ys (by simpa [beqJson] using h)
    simp [hh]
  | .obj xs, .obj ys, h => by
    have hh := eq_of_beqJsonObj xs ys (by simpa [beqJson] using h)
    simp [hh]
  | .null, .bool _, h | .null, .num _, h | .null, .str _, h
  | .null, .arr _, h | .null, .obj _, h
  | .bool _, .null, h | .bool _, .num _, h | .bool _, .str _, h
  | .bool _, .arr _, h | .bool _, .obj _, h
  | .num _, .null, h | .num _, .bool _, h | .num _, .str _, h
  | .num _, .arr _, h | .num _, .obj _, h
  | .str _, .null, h | .str _, .bool _, h | .str _, .num _, h
  | .str _, .arr _, h | .str _, .obj _, h
  | .arr _, .null, h | .arr _, .bool _, h | .arr _, .num _, h
  | .arr _, .str _, h | .arr _, .obj _, h
  | .obj _, .null, h | .obj _, .bool _, h | .obj _, .num _, h
  | .obj _, .str _, h | .obj _, .arr _, h => by simp [beqJson] at h

theorem eq_of_beqJsonArr : (xs ys : List JsonVal) → beqJsonArr xs ys = true → xs = ys
  | [], [], _ => rfl
  | [], _ :: _, h => by simp [beqJsonArr] at h
  | _ :: _, [], h => by simp [beqJsonArr] at h
  | x :: xs, y :: ys, h => by
    rw [beqJsonArr, Bool.and_eq_true] at h
    simp [eq_of_beqJson x y h.1, eq_of_beqJsonArr xs ys h.2]

theorem eq_of_beqJsonObj :
    (xs ys : List (String × JsonVal)) → beqJsonObj xs ys = true → xs = ys
  | [], [], _ => rfl
  | [], _ :: _, h => by simp [beqJsonObj] at h
  | _ :: _, [], h => by simp [beqJsonObj] at h
  | (k1, v1) :: xs, (k2, v2) :: ys, h => by
    rw [beqJsonObj, Bool.and_eq_true, Bool.and_eq_true] at h
    obtain ⟨⟨hk, hv⟩, ht⟩ := h
    simp only [beq_iff_eq] at hk
    simp [hk, eq_of_beqJson v1 v2 hv, eq_of_beqJsonObj xs ys ht]

end

instance : DecidableEq JsonVal := fun a b =>
  if h : beqJson a b = true then isTrue (eq_of_beqJson a b h)
  else isFalse (fun hh => h (hh ▸ beqJson_refl a))

instance : LawfulBEq JsonVal where
  eq_of_beq h := eq_of_beqJson _ _ h
  rfl := beqJson_refl _

/-- Python truthiness (`if data:`) of a JSON value. -/
def truthy : JsonVal → Bool
  | .null => false
  | .bool b => b
  | .num q => !(decide (q = 0))
  | .str s => !s.isEmpty
  | .arr xs => !xs.isEmpty
  | .obj kvs => !kvs.isEmpty

/-- First binding for a key in an association list (dicts built by the
parser have unique keys, so first = the dict entry). -/
def objFind (kvs : List (String × JsonVal)) (k : String) : Option JsonVal :=
  (kvs.find? (fun p => p.1 == k)).map (fun p => p.2)

/-- Python `v[k]`: crashes (`none`) unless `v` is a dict containing `k`. -/
def pySub (v : JsonVal) (k : String) : Option JsonVal :=
  match v with
  | .obj kvs => objFind kvs k
  | _ => none

/-- Python `v.get(k)`: crashes (`none`) unless `v` is a dict; otherwise
yields `some none` when the key is absent and `some (some x)` when present. -/
def pyGetOpt (v : JsonVal) (k : String) : Option (Option JsonVal) :=
  match v with
  | .obj kvs => some (objFind kvs k)
  | _ => none

/-! ### `json.loads` (the JSON grammar; the NaN/Infinity extension is
never exercised by this program's fragments and is omitted) -/

/-- Skip JSON whitespace. -/
def skipWs (cs : List Char) : List Char :=
  cs.dropWhile (fun c => c = ' ' || c = '\t' || c = '\n' || c = '\r')

def digitVal (c : Char) : Nat := c.toNat - '0'.toNat

def isHexC (c : Char) : Bool :=
  c.isDigit || ('a' ≤ c && c ≤ 'f') || ('A' ≤ c && c ≤ 'F')

def hexVal (c : Char) : Nat :=
  if c.isDigit then digitVal c
  else if 'a' ≤ c && c ≤ 'f' then c.toNat - 'a'.toNat + 10
  else c.toNat - 'A'.toNat + 10

def digitsToNat (ds : List Char) : Nat := ds.foldl (fun a c => a * 10 + digitVal c) 0

/-- Parse the body of a JSON string after the opening quote. -/
def parseStringBody : List Char → Option (String × List Char)
  | [] => none
  | '"' :: rest => some ("", rest)
  | '\\' :: esc =>
    match esc with
    | '"' :: rest => (parseStringBody rest).map (fun p => (⟨'"' :: p.1.data⟩, p.2))
    | '\\' :: rest => (parseStringBody rest).map (fun p => (⟨'\\' :: p.1.data⟩, p.2))
    | '/' :: rest => (parseStringBody rest).map (fun p => (⟨'/' :: p.1.data⟩, p.2))
    | 'b' :: rest => (parseStringBody rest).map (fun p => (⟨'\x08' :: p.1.data⟩, p.2))
    | 'f' :: rest => (parseStringBody rest).map (fun p => (⟨'\x0c' :: p.1.data⟩, p.2))
    | 'n' :: rest => (parseStringBody rest).map (fun p => (⟨'\n' :: p.1.data⟩, p.2))
    | 'r' :: rest => (parseStringBody rest).map (fun p => (⟨'\r' :: p.1.data⟩, p.2))
    | 't' :: rest => (parseStringBody rest).map (fun p => (⟨'\t' :: p.1.data⟩, p.2))
    | 'u' :: h1 :: h2 :: h3 :: h4 :: rest =>
      if isHexC h1 && isHexC h2 && isHexC h3 && isHexC h4 then
        let code := ((hexVal h1 * 16 + hexVal h2) * 16 + hexVal h3) * 16 + hexVal h4
        (parseStringBody rest).map (fun p => (⟨Char.ofNat code :: p.1.data⟩, p.2))
      else none
    | _ => none
  | c :: rest =>
    if c.toNat < 32 then none
    else (parseStringBody rest).map (fun p => (⟨c :: p.1.data⟩, p.2))

/-- Parse a JSON number per the grammar `-?(0|[1-9]\d*)(\.\d+)?([eE][-+]?\d+)?`,
returning its exact rational value. -/
def parseNumber (cs : List Char) : Option (JsonVal × List Char) :=
  let (sgn, cs1) : (Int × List Char) :=
    match cs with
    | '-' :: rest => (-1, rest)
    | _ => (1, cs)
  match cs1 with
  | c :: _ =>
    if c.isDigit then
      let intDs := if c = '0' then [c] else cs1.takeWhile Char.isDigit
      let cs2 := cs1.drop intDs.length
      let (fracDs, cs3) : (List Char × List Char) :=
        match cs2 with
        | '.' :: rest =>
          let ds := rest.takeWhile Char.isDigit
          if ds = [] then ([], cs2) else (ds, rest.drop ds.length)
        | _ => ([], cs2)
      let (expVal, cs4) : (Option Int × List Char) :=
        match cs3 with
        | e :: rest =>
          if e = 'e' || e = 'E' then
            let (esgn, rest2) : (Int × List Char) :=
              match rest with
              | '+' :: r => (1, r)
              | '-' :: r => (-1, r)
              | _ => (1, rest)
            let ds := rest2.takeWhile Char.isDigit
            if ds = [] then (none, cs3)
            else (some (esgn * (digitsToNat ds : Int)), rest2.drop ds.length)
          else (none, cs3)
        | [] => (none, cs3)
      let mantNum : Int := sgn * ((digitsToNat intDs * 10 ^ fracDs.length
        + digitsToNat fracDs : Nat) : Int)
      let q : ℚ :=
        match expVal with
        | none => mkRat mantNum (10 ^ fracDs.length)
        | some e =>
          if 0 ≤ e then mkRat (mantNum * 10 ^ e.toNat) (10 ^ fracDs.length)
          else mkRat mantNum (10 ^ fracDs.length * 10 ^ (-e).toNat)
      some (.num q, cs4)
    else none
  | [] => none

/-- Insert into a Python dict: overwrite in place if the key exists. -/
def dictInsert (kvs : List (String × JsonVal)) (k : String) (v : JsonVal) :
    List (String × JsonVal) :=
  if kvs.any (fun p => p.1 == k) then
    kvs.map (fun p => if p.1 == k then (p.1, v) else p)
  else kvs ++ [(k, v)]

/-- Build a dict from members in order (later duplicates overwrite). -/
def mkDict (ms : List (String × JsonVal)) : List (String × JsonVal) :=
  ms.foldl (fun acc p => dictInsert acc p.1 p.2) []

mutual

/-- Recursive-descent JSON value parser (fuel-indexed). -/
def parseVal : Nat → List Char → Option (JsonVal × List Char)
  | 0, _ => none
  | fuel + 1, cs =>
    match skipWs cs with
    | [] => none
    | c :: rest =>
      if c = '\x7b' then
        match skipWs rest with
        | '\x7d' :: r2 => some (.obj [], r2)
        | r2 =>
          match parseMembers fuel r2 with
          | some (ms, r3) => some (.obj (mkDict ms), r3)
          | none => none
      else if c = '[' then
        match skipWs rest with
        | ']' :: r2 => some (.arr [], r2)
        | r2 =>
          match parseElems fuel r2 with
          | some (es, r3) => some (.arr es, r3)
          | none => none
      else if c = '"' then
        match parseStringBody rest with
        | some (s, r2) => some (.str s, r2)
        | none => none
      else if c = 't' then
        match rest with
        | 'r' :: 'u' :: 'e' :: r2 => some (.bool true, r2)
        | _ => none
      else if c = 'f' then
        match rest with
        | 'a' :: 'l' :: 's' :: 'e' :: r2 => some (.bool false, r2)
        | _ => none
      else if c = 'n' then
        match rest with
        | 'u' :: 'l' :: 'l' :: r2 => some (.null, r2)
        | _ => none
      else parseNumber (c :: rest)

/-- Parse `"key": value (, ...)*` up to the closing brace. -/
def parseMembers : Nat → List Char → Option (List (String × JsonVal) × List Char)
  | 0, _ => none
  | fuel + 1, cs =>
    match skipWs cs with
    | '"' :: rest =>
      match parseStringBody rest with
      | some (k, r2) =>
        match skipWs r2 with
        | ':' :: r3 =>
          match parseVal fuel r3 with
          | some (v, r4) =>
            match skipWs r4 with
            | ',' :: r5 =>
              match parseMembers fuel r5 with
              | some (ms, r6) => some ((k, v) :: ms, r6)
              | none => none
            | '\x7d' :: r5 => some ([(k, v)], r5)
            | _ => none
          | none => none
        | _ => none
      | none => none
    | _ => none

/-- Parse `value (, ...)*` up to the closing bracket. -/
def parseElems : Nat → List Char → Option (List JsonVal × List Char)
  | 0, _ => none
  | fuel + 1, cs =>
    match parseVal fuel cs with
    | some (v, r1) =>
      match skipWs r1 with
      | ',' :: r2 =>
        match parseElems fuel r2 with
        | some (es, r3) => some (v :: es, r3)
        | none => none
      | ']' :: r2 => some ([v], r2)
      | _ => none
    | none => none

end

/-- `parse_json`: `json.loads` wrapped so that a `JSONDecodeError` is
caught, logged, and surfaced as `None` (the function never raises). -/
def parse_json (s : String) : Option JsonVal :=
  match parseVal (s.data.length + 2) s.data with
  | some (v, rest) => if (skipWs rest).isEmpty then some v else none
  | none => none

/-! ### The fragment-capture state machine (`process_line`) -/

/-- `process_line(line, capturing, json_str)`.  Returns the updated
capturing flag, the updated buffer, and the emitted value for this line
(`none` both in the no-emission case and in the parse-failure case,
because `parse_json` catches `JSONDecodeError` internally and returns
`None`, so the dead `except` branches in `process_line` never run). -/
def process_line (line : String) (capturing : Bool) (json_str : String) :
    Bool × String × Option JsonVal :=
  if jobMessageMatch line then
    (true, json_str, none)
  else if !capturing then
    if actionMessageMatch line then (true, "\x7b", none) else (capturing, json_str, none)
  else if strEndsWith (pyStrip line) "\x7d." then
    (false, "", parse_json (json_str ++ "\x7d"))
  else if strStartsWith (pyStrip line) accessTokenPat then
    (capturing, json_str, none)
  else if strStartsWith line "[" then
    (false, "", parse_json json_str)
  else
    (capturing, json_str ++ pyStrip line, none)

/-- Run `process_line` over a list of lines, collecting each line's
emitted value; returns the final (capturing, buffer) state and the
per-line emissions. -/
def runLines : List String → Bool → String → (Bool × String) × List (Option JsonVal)
  | [], capturing, buf => ((capturing, buf), [])
  | l :: rest, capturing, buf =>
    let r := process_line l capturing buf
    let t := runLines rest r.1 r.2.1
    (t.1, r.2.2 :: t.2)

/-! ### Line source and scan loop -/

/-- `read_file`: the file's content when readable, else (on
`FileNotFoundError` / `IOError`) an empty line list together with the
flag that an error diagnostic was logged. -/
def read_file (content : Option (List String)) : List String × Bool :=
  match content with
  | some lines => (lines, false)
  | none => ([], true)

/-- `extract_checkout_actions`: scan all lines, appending each emitted
value `data` for which Python `if data:` holds (so `None` and falsy
trees are dropped). -/
def extract_checkout_actions (content : Option (List String)) : List JsonVal :=
  let lines := (read_file content).1
  if lines.isEmpty then []
  else
    (lines.foldl
      (fun (st : (Bool × String) × List JsonVal) line =>
        let r := process_line line st.1.1 st.1.2
        ((r.1, r.2.1),
          match r.2.2 with
          | some v => if truthy v then st.2 ++ [v] else st.2
          | none => st.2))
      ((false, ""), [])).2

/-! ### Timestamp truncation and parsing -/

/-- Everything up to and including the first `.` plus the next (at most)
six characters, if a dot occurs. -/
def truncAux : List Char → Option (List Char)
  | [] => none
  | c :: rest =>
    if c = '.' then some ('.' :: rest.take 6)
    else (truncAux rest).map (fun l => c :: l)

/-- `truncate_microseconds(date_str)`:
`date_str[:date_str.index('.') + 7] + 'Z'` when a dot occurs, else the
string unchanged. -/
def truncate_microseconds (s : String) : String :=
  match truncAux s.data with
  | none => s
  | some l => ⟨l ++ ['Z']⟩

/-- Parse exactly four digits (`strptime` `%Y`). -/
def p4digits : List Char → Option (Nat × List Char)
  | a :: b :: c :: d :: rest =>
    if a.isDigit && b.isDigit && c.isDigit && d.isDigit then
      some (((digitVal a * 10 + digitVal b) * 10 + digitVal c) * 10 + digitVal d, rest)
    else none
  | _ => none

/-- Parse a one-or-two-digit field following CPython `strptime`'s
alternation: a two-digit form is taken when its value lies in
`[lo2, hi2]`, otherwise a single digit `≥ lo1` is taken. -/
def pNum2 (lo2 hi2 lo1 : Nat) : List Char → Option (Nat × List Char)
  | a :: b :: rest =>
    if a.isDigit && b.isDigit then
      let v := digitVal a * 10 + digitVal b
      if lo2 ≤ v && v ≤ hi2 then some (v, rest)
      else if lo1 ≤ digitVal a then some (digitVal a, b :: rest) else none
    else if a.isDigit && lo1 ≤ digitVal a then some (digitVal a, b :: rest) else none
  | [a] => if a.isDigit && lo1 ≤ digitVal a then some (digitVal a, []) else none
  | [] => none

/-- Consume one expected literal character. -/
def litChar (c : Char) : List Char → Option (List Char)
  | x :: rest => if x = c then some rest else none
  | [] => none

/-- `%f`: one to six digits, scaled to microseconds. -/
def pFrac (cs : List Char) : Option (Nat × List Char) :=
  let ds := (cs.takeWhile Char.isDigit).take 6
  if ds.isEmpty then none
  else some (digitsToNat ds * 10 ^ (6 - ds.length), cs.drop ds.length)

/-- Gregorian leap year. -/
def isLeap (y : Nat) : Bool := y % 4 = 0 && (y % 100 ≠ 0 || y % 400 = 0)

/-- Length of a month, as validated by `datetime`. -/
def daysInMonth (y m : Nat) : Nat :=
  if m = 2 then (if isLeap y then 29 else 28)
  else if m = 4 || m = 6 || m = 9 || m = 11 then 30
  else 31

/-- Days since 1970-01-01 of a civil date (all quantities nonnegative
here since `datetime` restricts years to 1..9999). -/
def daysFromCivil (y m d : Nat) : Int :=
  let yy : Int := if m ≤ 2 then (y : Int) - 1 else (y : Int)
  let era : Int := yy / 400
  let yoe : Int := yy - era * 400
  let mp : Int := ((m : Int) + 9) % 12
  let doy : Int := (153 * mp + 2) / 5 + (d : Int) - 1
  let doe : Int := yoe * 365 + yoe / 4 - yoe / 100 + doy
  era * 146097 + doe - 719468

/-- `datetime.strptime(s, '%Y-%m-%dT%H:%M:%S.%fZ')`, returned as
microseconds since the epoch; `none` models the `ValueError` raised on a
non-matching or out-of-range timestamp (including trailing unconverted
data). -/
def parseTimestampZ (s : String) : Option Int := do
  let (y, r1) ← p4digits s.data
  let r2 ← litChar '-' r1
  let (mo, r3) ← pNum2 1 12 1 r2
  let r4 ← litChar '-' r3
  let (dy, r5) ← pNum2 1 31 1 r4
  let r6 ← litChar 'T' r5
  let (hh, r7) ← pNum2 0 23 0 r6
  let r8 ← litChar ':' r7
  let (mi, r9) ← pNum2 0 59 0 r8
  let r10 ← litChar ':' r9
  let (ss, r11) ← pNum2 0 61 0 r10
  let r12 ← litChar '.' r11
  let (us, r13) ← pFrac r12
  let r14 ← litChar 'Z' r13
  if r14.isEmpty && 1 ≤ y && dy ≤ daysInMonth y mo && ss ≤ 59 then
    some ((daysFromCivil y mo dy * 86400 + ((hh * 3600 + mi * 60 + ss : Nat) : Int))
      * 1000000 + (us : Int))
  else none

/-- The `CheckoutStepDetails.duration` computation, in exact
microseconds: both timestamps are first passed through
`truncate_microseconds`, then parsed, then subtracted. -/
def durationMicros (startTime finishTime : String) : Option Int :=
  Option.bind (parseTimestampZ (truncate_microseconds startTime)) (fun s =>
    Option.bind (parseTimestampZ (truncate_microseconds finishTime)) (fun f =>
      some (f - s)))

/-- `duration` in seconds (`timedelta.total_seconds()`), exactly. -/
def durationSeconds (startTime finishTime : String) : Option ℚ :=
  (durationMicros startTime finishTime).map (fun n => mkRat n 1000000)

/-! ### Correlator helpers: fallible filter/map (Python `filter`
evaluates its predicate on every element once `list()` forces it; any
exception in the predicate aborts) -/

/-- `list(filter(p, xs))` with a predicate that may crash. -/
def pyFilterM {α : Type} (p : α → Option Bool) : List α → Option (List α)
  | [] => some []
  | x :: xs =>
    match p x with
    | none => none
    | some b =>
      match pyFilterM p xs with
      | none => none
      | some rest => some (if b then x :: rest else rest)

/-- Process elements left to right with a crashing step; an exception on
any element aborts the whole loop. -/
def pyMapM {α β : Type} (f : α → Option β) : List α → Option (List β)
  | [] => some []
  | x :: xs =>
    match f x with
    | none => none
    | some y =>
      match pyMapM f xs with
      | none => none
      | some ys => some (y :: ys)

/-- The value of a JSON array; `none` models the `TypeError` of
iterating / filtering a non-list (non-list iterables in these positions
also crash when their elements are subscripted). -/
def asArr : JsonVal → Option (List JsonVal)
  | .arr xs => some xs
  | _ => none

/-- The underlying string of a JSON string; `none` models the
`TypeError` of string operations on a non-string. -/
def asStr : JsonVal → Option String
  | .str s => some s
  | _ => none

/-! ### Job-context and action extraction -/

/-- `is_jobId(item)`: `item.get("k") == "run_id"`. -/
def is_jobId (item : JsonVal) : Option Bool :=
  (pyGetOpt item "k").map (fun o => o == some (JsonVal.str "run_id"))

/-- `is_checkout_action(item)`: `item.get("action") == "actions/checkout"`. -/
def is_checkout_action (item : JsonVal) : Option Bool :=
  (pyGetOpt item "action").map (fun o => o == some (JsonVal.str "actions/checkout"))

/-- `extract_run_id(jobData)`:
`list(filter(is_jobId, jobData['contextData']['github']['d']))[0]['v']`. -/
def extract_run_id (jobData : JsonVal) : Option JsonVal := do
  let cd ← pySub jobData "contextData"
  let gh ← pySub cd "github"
  let dv ← pySub gh "d"
  let items ← asArr dv
  let sel ← pyFilterM is_jobId items
  let first ← sel.head?
  pySub first "v"

/-- `extract_main_repository(jobData)`: same path, filtering
`x.get("k") == "repository"`. -/
def extract_main_repository (jobData : JsonVal) : Option JsonVal := do
  let cd ← pySub jobData "contextData"
  let gh ← pySub cd "github"
  let dv ← pySub gh "d"
  let items ← asArr dv
  let sel ← pyFilterM
    (fun x => (pyGetOpt x "k").map (fun o => o == some (JsonVal.str "repository"))) items
  let first ← sel.head?
  pySub first "v"

/-- One pass of the `extract_lit_items` loop body over the items of
`data['map']`, accumulating `(key['lit'], value['lit'])` pairs whose two
literals are both truthy. -/
def litFold : List JsonVal → List (JsonVal × JsonVal) →
    Option (List (JsonVal × JsonVal))
  | [], acc => some acc
  | item :: rest, acc => do
    let kObj ← pySub item "key"
    let kLit ← pyGetOpt kObj "lit"
    let vObj ← pySub item "value"
    let vLit ← pyGetOpt vObj "lit"
    let acc' :=
      match kLit, vLit with
      | some k, some v => if truthy k && truthy v then acc ++ [(k, v)] else acc
      | _, _ => acc
    litFold rest acc'

/-- `extract_lit_items(data)`: `'map' in data` followed by the loop.  A
non-dict `data` gives Python's `in` on a list (membership) or string
(substring), after which subscripting with `'map'` crashes; membership
on a scalar crashes immediately. -/
def extract_lit_items (data : JsonVal) : Option (List (JsonVal × JsonVal)) :=
  match data with
  | .obj kvs =>
    match objFind kvs "map" with
    | some (.arr items) => litFold items []
    | some (.str s) => if s.isEmpty then some [] else none
    | some (.obj o) => if o.isEmpty then some [] else none
    | some _ => none
    | none => some []
  | .arr xs => if xs.contains (JsonVal.str "map") then none else some []
  | .str s => if subOccurs "map".data s.data then none else some []
  | _ => none

/-! ### `process_single_action` and `process_actions` -/

/-- The predicate of `filter(lambda x: x.get("id") == action['stepId'], ...)`. -/
def stepIdPred (sid : JsonVal) (x : JsonVal) : Option Bool :=
  (pyGetOpt x "id").map (fun o => o == some sid)

/-- The predicate of
`filter(lambda x: x.get('key')['lit'] == 'repository', ...)`; the
subscript `['lit']` crashes on a missing `key`, a non-dict, or a dict
without `'lit'`. -/
def repoKeyPred (x : JsonVal) : Option Bool := do
  let kOpt ← pyGetOpt x "key"
  let kObj ← kOpt
  let l ← pySub kObj "lit"
  pure (l == JsonVal.str "repository")

/-- The record built for one checkout action: the `metrics` entry of
line 292 plus the duration that `track_action` computes and sends. -/
structure CheckoutMetric where
  stepId : JsonVal
  startTime : JsonVal
  finishTime : JsonVal
  repository : JsonVal
  parameters : List (JsonVal × JsonVal)
  durMicros : Int
deriving DecidableEq

/-- The `if t[0].get('inputs') is not None` block of
`process_single_action`: resolve the effective repository and the
parameter list.  `inpOpt` is the result of the `.get('inputs')` call;
Python's `is not None` is false both for an absent key and for a JSON
`null` value. -/
def resolveRepoParams (mainRepository : JsonVal) (inpOpt : Option JsonVal) :
    Option (JsonVal × List (JsonVal × JsonVal)) :=
  match inpOpt with
  | some inp =>
    if inp = JsonVal.null then some (mainRepository, ([] : List (JsonVal × JsonVal)))
    else do
      let mV ← pySub inp "map"
      let mapL ← asArr mV
      let repoKey ← pyFilterM repoKeyPred mapL
      let parameters ← extract_lit_items inp
      let rk0 ← repoKey.head?
      let vOpt ← pyGetOpt rk0 "value"
      let vObj ← vOpt
      let repo ← pySub vObj "lit"
      pure (repo, parameters)
  | none => some (mainRepository, ([] : List (JsonVal × JsonVal)))

/-- `process_single_action(action, jobData, main_repository, metrics)`:
`none` models any uncaught exception (IndexError on `t[0]` or
`repo_key[0]`, KeyError/TypeError on subscripts, ValueError from
`strptime` when the duration is computed for logging and telemetry). -/
def process_single_action (action jobData mainRepository : JsonVal) :
    Option CheckoutMetric := do
  let sid ← pySub action "stepId"
  let stepsV ← pySub jobData "steps"
  let steps ← asArr stepsV
  let t ← pyFilterM (stepIdPred sid) steps
  let t0 ← t.head?
  let inpOpt ← pyGetOpt t0 "inputs"
  let rp ← resolveRepoParams mainRepository inpOpt
  let _name ← pySub t0 "name"
  let st ← pySub action "startTime"
  let ft ← pySub action "finishTime"
  let stS ← asStr st
  let ftS ← asStr ft
  let dur ← durationMicros stS ftS
  pure ⟨sid, st, ft, rp.1, rp.2, dur⟩

/-- `process_actions(actions)`: job context from `actions[0]`, then one
`process_single_action` per checkout action of `actions[1:]`; `none`
models an uncaught exception aborting the run. -/
def process_actions (actions : List JsonVal) : Option (List CheckoutMetric) := do
  let jobData ← actions.head?
  let _runId ← extract_run_id jobData
  let mainRepository ← extract_main_repository jobData
  let checkoutActs ← pyFilterM is_checkout_action (actions.drop 1)
  pyMapM (fun a => process_single_action a jobData mainRepository) checkoutActs

/-- The per-file pipeline of `main`: scan the chosen file's lines, then
`process_actions` on the collected fragments. -/
def runPipeline (content : Option (List String)) : Option (List CheckoutMetric) :=
  process_actions (extract_checkout_actions content)

/-! ### Spec-side checks (stated from the specification's wording, for
comparison against the code-side definitions above) -/

/-- Everything after the first `.` of a string, if any. -/
def fracPart : List Char → Option (List Char)
  | [] => none
  | c :: rest => if c = '.' then some rest else fracPart rest

/-- Modelled from the spec: "fractional-second portion … exactly six
digits followed by the zone marker `Z`". -/
def sixDigitFracZ (s : String) : Bool :=
  match fracPart s.data with
  | none => false
  | some f => f.length = 7 && (f.take 6).all Char.isDigit && f.drop 6 = ['Z']

/-- Number of fractional digits: the digits directly after the first dot. -/
def fracDigitCount (s : String) : Option Nat :=
  (fracPart s.data).map (fun f => (f.takeWhile Char.isDigit).length)

/-- Modelled from the spec: "line not matching any of the five priority
rules" of §4.1 — the five pattern-triggered rules 1–5 (job message,
action message, terminator, access-token skip, re-trigger). -/
def matchesNoRule (line : String) (capturing : Bool) : Bool :=
  !jobMessageMatch line &&
  !(!capturing && actionMessageMatch line) &&
  !(capturing && strEndsWith (pyStrip line) "\x7d.") &&
  !(strStartsWith (pyStrip line) accessTokenPat) &&
  !(capturing && strStartsWith line "[")

/-! ### Concrete sample data used by witnesses and counterexamples -/

def jobLine : String := "[2024-01-01 00:00:00Z INFO Worker] Job message: start"

def actionLine : String :=
  "[2024-01-01 00:00:01Z INFO ExecutionContext] Publish step telemetry for current step \x7b"

def fragLineA : String := "  \"a\":1"

def fragLineB : String := "  \"b\":2\x7d."

/-- The C1 line sequence: job message, action marker, two content lines. -/
def claimSeq : List String := [jobLine, actionLine, fragLineA, fragLineB]

def tokenLine : String := "  \"AccessToken\": \"secret\","

def termLine : String := "\x7d."

def seqWithToken : List String := [actionLine, tokenLine, fragLineA, termLine]

def seqNoToken : List String := [actionLine, fragLineA, termLine]

/-- A step whose `inputs.map` contains no `repository` pair. -/
def stepEmptyMap : JsonVal :=
  .obj [("id", .str "s1"), ("name", .str "checkout"),
    ("inputs", .obj [("map", .arr [])])]

def jobEmptyMap : JsonVal := .obj [("steps", .arr [stepEmptyMap])]

/-- A step with no `inputs` entry at all. -/
def stepNoInputs : JsonVal := .obj [("id", .str "s1"), ("name", .str "checkout")]

def jobNoInputs : JsonVal := .obj [("steps", .arr [stepNoInputs])]

/-- A checkout-action fragment referencing step `s1`. -/
def checkoutAct : JsonVal :=
  .obj [("action", .str "actions/checkout"), ("stepId", .str "s1"),
    ("startTime", .str "2024-01-01T00:00:00.123456Z"),
    ("finishTime", .str "2024-01-01T00:00:05.123456Z")]

def jobNoSteps : JsonVal := .obj [("steps", .arr [])]

/-- A map item whose key literal is the falsy scalar `""`. -/
def falsyItem : JsonVal :=
  .obj [("key", .obj [("lit", .str "")]), ("value", .obj [("lit", .str "v")])]

def ts3 : String := "2024-01-01T00:00:00.123Z"

/-! ### Helper lemmas -/

theorem truncAux_no_dot : ∀ cs : List Char, '.' ∉ cs → truncAux cs = none := by
  intro cs
  induction cs with
  | nil => intro _; rfl
  | cons c rest ih =>
    intro h
    rw [List.mem_cons, not_or] at h
    rw [truncAux, if_neg (fun hc => h.1 hc.symm), ih h.2]
    rfl

theorem trunc_of_no_dot (s : String) (h : '.' ∉ s.data) :
    truncate_microseconds s = s := by
  rw [truncate_microseconds, truncAux_no_dot s.data h]

theorem truncAux_dot : ∀ a b : List Char, '.' ∉ a →
    truncAux (a ++ '.' :: b) = some (a ++ '.' :: b.take 6) := by
  intro a
  induction a with
  | nil => intro b _; simp [truncAux]
  | cons c a' ih =>
    intro b h
    rw [List.mem_cons, not_or] at h
    rw [List.cons_append, truncAux, if_neg (fun hc => h.1 hc.symm), ih b h.2]
    rfl

theorem trunc_of_dot (a b : List Char) (ha : '.' ∉ a) :
    truncate_microseconds ⟨a ++ '.' :: b⟩ = ⟨a ++ '.' :: (b.take 6 ++ ['Z'])⟩ := by
  have hd : (String.mk (a ++ '.' :: b)).data = a ++ '.' :: b := rfl
  rw [truncate_microseconds, hd, truncAux_dot a b ha]
  simp

theorem pyFilterM_mem {α : Type} {p : α → Option Bool} :
    ∀ {xs l : List α} {x : α}, pyFilterM p xs = some l → x ∈ xs →
      p x = some true → x ∈ l := by
  intro xs
  induction xs with
  | nil => intro l x h hm; cases hm
  | cons y ys ih =>
    intro l x h hm hp
    rw [pyFilterM] at h
    cases hy : p y with
    | none => rw [hy] at h; cases h
    | some b =>
      rw [hy] at h
      cases hrest : pyFilterM p ys with
      | none => rw [hrest] at h; cases h
      | some rest =>
        rw [hrest] at h
        injection h with h
        rcases List.mem_cons.mp hm with hx | hx
        · subst hx
          rw [hy] at hp
          injection hp with hp
          subst hp
          rw [← h]
          exact List.mem_cons_self _ _
        · have := ih hrest hx hp
          rw [← h]
          cases b
          · simpa using this
          · exact List.mem_cons_of_mem _ this

theorem pyMapM_none {α β : Type} {f : α → Option β} :
    ∀ {xs : List α} {x : α}, x ∈ xs → f x = none → pyMapM f xs = none := by
  intro xs
  induction xs with
  | nil => intro x hm; cases hm
  | cons y ys ih =>
    intro x hm hf
    rw [pyMapM]
    rcases List.mem_cons.mp hm with hx | hx
    · subst hx; rw [hf]
    · cases hy : f y with
      | none => rfl
      | some v => rw [ih hx hf]

theorem litFold_skip (item kObj vObj k v : JsonVal)
    (hk : pySub item "key" = some kObj) (hkl : pyGetOpt kObj "lit" = some (some k))
    (hv : pySub item "value" = some vObj) (hvl : pyGetOpt vObj "lit" = some (some v))
    (hfalsy : (truthy k && truthy v) = false) :
    ∀ (pre post : List JsonVal) (acc : List (JsonVal × JsonVal)),
      litFold (pre ++ item :: post) acc = litFold (pre ++ post) acc := by
  intro pre
  induction pre with
  | nil =>
    intro post acc
    rw [List.nil_append, List.nil_append, litFold]
    simp only [hk, hkl, hv, hvl, Option.bind_eq_bind, Option.some_bind]
    rw [if_neg (fun hc => by rw [hfalsy] at hc; cases hc)]
  | cons y ys ih =>
    intro post acc
    rw [List.cons_append, List.cons_append, litFold, litFold]
    simp only [Option.bind_eq_bind]
    cases pySub y "key" with
    | none => simp
    | some yk =>
      simp only [Option.some_bind]
      cases pyGetOpt yk "lit" with
      | none => simp
      | some ykl =>
        simp only [Option.some_bind]
        cases pySub y "value" with
        | none => simp
        | some yv =>
          simp only [Option.some_bind]
          cases pyGetOpt yv "lit" with
          | none => simp
          | some yvl =>
            simp only [Option.some_bind]
            exact ih post _

/-! ### Claim C1 -/

/-- C1 counterexample: for the sequence job-message line, action-marker
line, `  "a":1`, `  "b":2}.`, the machine does not emit one fragment
equal to `{"a":1,"b":2}` — it emits nothing at all, because the
job-message line has already forced capturing, so the action-marker line
(which begins with `[`) terminates an empty capture with a parse
failure instead of starting a fragment. -/
theorem C1_counterexample :
    jobMessageMatch jobLine = true ∧ actionMessageMatch actionLine = true ∧
    ¬ ((runLines claimSeq false "").2.filterMap id
        = [JsonVal.obj [("a", JsonVal.num 1), ("b", JsonVal.num 2)]]) := by
  refine ⟨by decide, by decide, by decide⟩

/-- C1 (amended): processing the four lines from `NOT_CAPTURING` with an
empty buffer emits no value on any line (the action-marker line ends the
capture opened by the job-message line with a parse failure, surfaced as
`none`), and leaves the machine in `NOT_CAPTURING` with an empty
buffer. -/
theorem C1_amended :
    runLines claimSeq false "" = ((false, ""), [none, none, none, none]) ∧
    jobMessageMatch jobLine = true ∧ actionMessageMatch actionLine = true := by
  refine ⟨by decide, by decide, by decide⟩

/-! ### Claim C2 -/

/-- C2 counterexample: on the fragment-ending line `}.` (rule 3) with an
unparseable buffer, `process_line` returns `none` as its emitted value —
exactly the value returned for a line that emits nothing (here `hello`
while not capturing) — so a parse failure is not distinguishable by the
caller from the no-emission outcome. -/
theorem C2_counterexample :
    strEndsWith (pyStrip termLine) "\x7d." = true ∧
    parse_json ("" ++ "\x7d") = none ∧
    process_line termLine true "" = (false, "", none) ∧
    process_line "hello" false "" = (false, "", none) := by
  refine ⟨by decide, by decide, by decide, by decide⟩

/-- C2 (amended): only rules 3 and 5 can return a value, and a returned
value is always a successfully parsed tree (of the buffer plus `}` for
rule 3, of the bare buffer for rule 5); a parse failure on those rules
returns `none`, which is identical to the no-emission outcome, because
`parse_json` catches the decode error internally and the except branches
of `process_line` are dead code. -/
theorem C2_amended (line : String) (cap : Bool) (buf : String) :
    (∀ v, (process_line line cap buf).2.2 = some v →
      cap = true ∧ jobMessageMatch line = false ∧
      ((strEndsWith (pyStrip line) "\x7d." = true ∧ parse_json (buf ++ "\x7d") = some v) ∨
        (strEndsWith (pyStrip line) "\x7d." = false ∧
          strStartsWith (pyStrip line) accessTokenPat = false ∧
          strStartsWith line "[" = true ∧ parse_json buf = some v))) ∧
    (cap = true → jobMessageMatch line = false →
      strEndsWith (pyStrip line) "\x7d." = true → parse_json (buf ++ "\x7d") = none →
      (process_line line cap buf).2.2 = none) := by
  constructor
  · intro v hv
    by_cases hj : jobMessageMatch line
    · simp [process_line, hj] at hv
    · cases cap with
      | false =>
        by_cases ha : actionMessageMatch line <;> simp [process_line, hj, ha] at hv
      | true =>
        by_cases he : strEndsWith (pyStrip line) "\x7d."
        · simp only [process_line, hj, Bool.false_eq_true, if_false, Bool.not_true,
            he, if_true] at hv
          exact ⟨rfl, by simp [hj], Or.inl ⟨he, hv⟩⟩
        · by_cases ht : strStartsWith (pyStrip line) accessTokenPat
          · simp [process_line, hj, he, ht] at hv
          · by_cases hb : strStartsWith line "["
            · simp only [process_line, hj, Bool.false_eq_true, if_false, Bool.not_true,
                he, ht, hb, if_true] at hv
              exact ⟨rfl, by simp [hj],
                Or.inr ⟨by simp [he], by simp [ht], hb, hv⟩⟩
            · simp [process_line, hj, he, ht, hb] at hv
  · intro hcap hj he hp
    subst hcap
    simp [process_line, hj, he, hp]

/-- C2 witness: the amended theorem applied to the concrete rule-3 line
`}.` with an empty buffer, whose parse fails. -/
theorem C2_witness : (process_line termLine true "").2.2 = none :=
  (C2_amended termLine true "").2 rfl (by decide) (by decide) (by decide)

/-! ### Claim C3 -/

/-- C3 counterexample: a checkout action whose matched step has an
`inputs` entry whose `map` contains no `repository` pair does not fall
back to the main repository — `repo_key[0]` raises IndexError and the
correlation crashes (`none`). -/
theorem C3_counterexample :
    pyGetOpt stepEmptyMap "inputs" = some (some (JsonVal.obj [("map", JsonVal.arr [])])) ∧
    process_single_action checkoutAct jobEmptyMap (JsonVal.str "org/main") = none := by
  refine ⟨by decide, by decide⟩

/-- C3 (amended): the fallback to `mainRepository` with an empty
parameter list happens exactly when the matched step has no `inputs`
entry (or an `inputs` of JSON `null`, which Python reads as `None`);
with `inputs` present but lacking a `repository` pair the correlator
instead fails. -/
theorem C3_amended (action jobData mainRepository sid t0 nm : JsonVal)
    (steps trest : List JsonVal) (iopt : Option JsonVal) (stS ftS : String) (dur : Int)
    (h1 : pySub action "stepId" = some sid)
    (h2 : pySub jobData "steps" = some (JsonVal.arr steps))
    (h3 : pyFilterM (stepIdPred sid) steps = some (t0 :: trest))
    (h4 : pyGetOpt t0 "inputs" = some iopt)
    (h5 : iopt = none ∨ iopt = some JsonVal.null)
    (h6 : pySub t0 "name" = some nm)
    (h7 : pySub action "startTime" = some (JsonVal.str stS))
    (h8 : pySub action "finishTime" = some (JsonVal.str ftS))
    (h9 : durationMicros stS ftS = some dur) :
    process_single_action action jobData mainRepository =
      some ⟨sid, JsonVal.str stS, JsonVal.str ftS, mainRepository, [], dur⟩ := by
  have hrp : resolveRepoParams mainRepository iopt =
      some (mainRepository, ([] : List (JsonVal × JsonVal))) := by
    rcases h5 with h5 | h5 <;> subst h5
    · rfl
    · rw [resolveRepoParams]
      rw [if_pos rfl]
  simp only [process_single_action, Option.bind_eq_bind, h1, Option.some_bind, h2, asArr,
    h3, List.head?, h4, hrp, h6, h7, h8, asStr, h9, Option.pure_def]

/-- C3 witness: the amended theorem applied to a concrete checkout
action whose step `s1` has no `inputs` entry. -/
theorem C3_witness :
    process_single_action checkoutAct jobNoInputs (JsonVal.str "org/main") =
      some ⟨JsonVal.str "s1", JsonVal.str "2024-01-01T00:00:00.123456Z",
        JsonVal.str "2024-01-01T00:00:05.123456Z", JsonVal.str "org/main", [], 5000000⟩ :=
  C3_amended checkoutAct jobNoInputs (JsonVal.str "org/main") (JsonVal.str "s1")
    stepNoInputs (JsonVal.str "checkout") [stepNoInputs] [] none
    "2024-01-01T00:00:00.123456Z" "2024-01-01T00:00:05.123456Z" 5000000
    (by decide) (by decide) (by decide) (by decide) (Or.inl rfl) (by decide)
    (by decide) (by decide) (by decide)

/-! ### Claim C4 -/

/-- C4 counterexample: a timestamp with three fractional digits is not
normalized to exactly six digits followed by `Z`: truncation appends a
second `Z` after the untouched short fraction. -/
theorem C4_counterexample :
    fracDigitCount ts3 = some 3 ∧
    truncate_microseconds ts3 = "2024-01-01T00:00:00.123ZZ" ∧
    sixDigitFracZ (truncate_microseconds ts3) = false := by
  refine ⟨by decide, by decide, by decide⟩

/-- C4 (amended): duration is finishTime − startTime in seconds after
each timestamp is cut at the first dot plus the next at most six
characters with a `Z` appended; this equals six digits followed by `Z`
only when at least six fractional digits are present (with fewer, the
tail — including its zone marker — survives and gains an extra `Z`); a
timestamp with no fractional part passes through truncation unchanged. -/
theorem C4_amended (a b c d : List Char) (ha : '.' ∉ a) (hc : '.' ∉ c) :
    truncate_microseconds ⟨a ++ '.' :: b⟩ = ⟨a ++ '.' :: (b.take 6 ++ ['Z'])⟩ ∧
    durationSeconds ⟨a ++ '.' :: b⟩ ⟨c ++ '.' :: d⟩ =
      Option.map (fun n : Int => mkRat n 1000000)
        (Option.bind (parseTimestampZ ⟨a ++ '.' :: (b.take 6 ++ ['Z'])⟩) (fun s =>
          Option.bind (parseTimestampZ ⟨c ++ '.' :: (d.take 6 ++ ['Z'])⟩) (fun f =>
            some (f - s)))) ∧
    (∀ s : String, '.' ∉ s.data → truncate_microseconds s = s) := by
  refine ⟨trunc_of_dot a b ha, ?_, fun s hs => trunc_of_no_dot s hs⟩
  rw [durationSeconds, durationMicros, trunc_of_dot a b ha, trunc_of_dot c d hc]

/-- C4 witness: the amended theorem at a seven-fractional-digit
timestamp, whose truncation is six digits plus `Z`. -/
theorem C4_witness :
    truncate_microseconds ⟨"2024-01-01T00:00:00".data ++ '.' :: "1234567Z".data⟩ =
      ⟨"2024-01-01T00:00:00".data ++ '.' :: ("1234567Z".data.take 6 ++ ['Z'])⟩ :=
  (C4_amended "2024-01-01T00:00:00".data "1234567Z".data "2024-01-01T00:00:05".data
    "1234567Z".data (by decide) (by decide)).1

/-! ### Claim C5 -/

/-- C5 counterexample: `truncate_microseconds` is not idempotent on a
timestamp with three fractional digits — the second application appends
yet another `Z`. -/
theorem C5_counterexample :
    fracDigitCount ts3 = some 3 ∧
    truncate_microseconds (truncate_microseconds ts3) ≠ truncate_microseconds ts3 := by
  refine ⟨by decide, by decide⟩

/-- C5 (amended): `truncate_microseconds` is idempotent on timestamps
with no fractional part and on timestamps with at least six characters
after the dot (covering the 0, 6 and 9 fractional-digit cases); it is
not idempotent in the three-digit case. -/
theorem C5_amended :
    (∀ s : String, '.' ∉ s.data →
      truncate_microseconds (truncate_microseconds s) = truncate_microseconds s) ∧
    ∀ a b : List Char, '.' ∉ a → 6 ≤ b.length →
      truncate_microseconds (truncate_microseconds ⟨a ++ '.' :: b⟩) =
        truncate_microseconds ⟨a ++ '.' :: b⟩ := by
  constructor
  · intro s hs
    rw [trunc_of_no_dot s hs, trunc_of_no_dot s hs]
  · intro a b ha hb
    rw [trunc_of_dot a b ha, trunc_of_dot a (b.take 6 ++ ['Z']) ha]
    have hlen : (b.take 6).length = 6 := by
      rw [List.length_take]
      omega
    have htake : (b.take 6 ++ ['Z']).take 6 = b.take 6 := by
      rw [List.take_append_of_le_length (by simp [hlen]), List.take_take]
      simp
    rw [htake]

/-- C5 witness: idempotence at a dotless timestamp and at one with nine
fractional digits. -/
theorem C5_witness :
    truncate_microseconds (truncate_microseconds "2024-01-01T00:00:00Z") =
      truncate_microseconds "2024-01-01T00:00:00Z" ∧
    truncate_microseconds (truncate_microseconds ⟨"t".data ++ '.' :: "123456789Z".data⟩) =
      truncate_microseconds ⟨"t".data ++ '.' :: "123456789Z".data⟩ :=
  ⟨C5_amended.1 "2024-01-01T00:00:00Z" (by decide),
    C5_amended.2 "t".data "123456789Z".data (by decide) (by decide)⟩

/-! ### Claim C6 -/

/-- C6 counterexample: for a missing or unreadable file the line source
does recover with an empty sequence, but the whole run does not treat it
as "no work to do" — `process_actions` subscripts `actions[0]` on the
empty action list and the run crashes. -/
theorem C6_counterexample :
    extract_checkout_actions none = [] ∧ process_actions [] = none ∧
    runPipeline none = none := by
  refine ⟨by decide, by decide, by decide⟩

/-- C6 (amended): a missing or unreadable file yields an empty line
sequence plus a logged diagnostic and no extracted fragments, but the
run as a whole then crashes with an IndexError in `process_actions`
instead of treating the file as no work to do. -/
theorem C6_amended :
    read_file none = ([], true) ∧ extract_checkout_actions none = [] ∧
    runPipeline none = none := by
  refine ⟨by decide, by decide, by decide⟩

/-! ### Claim C7 -/

theorem single_action_no_step (act jobData mr sid : JsonVal) (steps : List JsonVal)
    (hsid : pySub act "stepId" = some sid)
    (hsteps : pySub jobData "steps" = some (JsonVal.arr steps))
    (hno : pyFilterM (stepIdPred sid) steps = some []) :
    process_single_action act jobData mr = none := by
  simp only [process_single_action, Option.bind_eq_bind, hsid, Option.some_bind, hsteps,
    asArr, hno, List.head?, Option.none_bind]

/-- C7: a checkout action in the tail of the fragment list whose
`stepId` matches no step definition makes the whole
`process_actions` run return the crash outcome (`none`): the filtered
step list is empty, `t[0]` raises an uncaught IndexError, and there is
no per-action recovery. -/
theorem C7_theorem (actions : List JsonVal) (jobData act sid : JsonVal)
    (rest steps : List JsonVal)
    (hacts : actions = jobData :: rest) (hmem : act ∈ rest)
    (hco : is_checkout_action act = some true)
    (hsid : pySub act "stepId" = some sid)
    (hsteps : pySub jobData "steps" = some (JsonVal.arr steps))
    (hno : pyFilterM (stepIdPred sid) steps = some []) :
    process_actions actions = none := by
  subst hacts
  simp only [process_actions, Option.bind_eq_bind, List.head?, Option.some_bind,
    List.drop_succ_cons, List.drop_zero]
  cases hrun : extract_run_id jobData with
  | none => simp only [hrun, Option.none_bind]
  | some rid =>
    simp only [hrun, Option.some_bind]
    cases hmain : extract_main_repository jobData with
    | none => simp only [hmain, Option.none_bind]
    | some mr =>
      simp only [hmain, Option.some_bind]
      cases hfil : pyFilterM is_checkout_action rest with
      | none => simp only [hfil, Option.none_bind]
      | some l =>
        simp only [hfil, Option.some_bind]
        exact pyMapM_none (pyFilterM_mem hfil hmem hco)
          (single_action_no_step act jobData mr sid steps hsid hsteps hno)

/-- C7 witness: a job context with an empty `steps` list and one
checkout action referencing `s1` aborts the run. -/
theorem C7_witness : process_actions [jobNoSteps, checkoutAct] = none :=
  C7_theorem [jobNoSteps, checkoutAct] jobNoSteps checkoutAct (JsonVal.str "s1")
    [checkoutAct] [] rfl (by decide) (by decide) (by decide) (by decide) (by decide)

/-! ### Claim C8 -/

/-- C8: a line whose trimmed content starts with the access-token marker
and that is not matched by rules 1–3 leaves the state and buffer
unchanged and emits nothing; consequently an access-token line between
an action-marker line and its terminator contributes no content to the
emitted fragment (the concrete runs with and without the token line end
in the same state and emit the same parsed fragments). -/
theorem C8_theorem :
    (∀ (line : String) (cap : Bool) (buf : String),
      jobMessageMatch line = false →
      (cap = false → actionMessageMatch line = false) →
      (cap = true → strEndsWith (pyStrip line) "\x7d." = false) →
      strStartsWith (pyStrip line) accessTokenPat = true →
      process_line line cap buf = (cap, buf, none)) ∧
    (runLines seqWithToken false "").1 = (runLines seqNoToken false "").1 ∧
    (runLines seqWithToken false "").2.filterMap id =
      (runLines seqNoToken false "").2.filterMap id := by
  refine ⟨?_, by decide, by decide⟩
  intro line cap buf hj hact hend htok
  cases cap with
  | false => simp [process_line, hj, hact rfl]
  | true => simp [process_line, hj, hend rfl, htok]

/-- C8 witness: the frame part applied to a concrete access-token line
while capturing with buffer `{`. -/
theorem C8_witness : process_line tokenLine true "\x7b" = (true, "\x7b", none) :=
  C8_theorem.1 tokenLine true "\x7b" (by decide) (fun h => nomatch h) (fun _ => by decide)
    (by decide)

/-! ### Claim C9 -/

/-- C9 counterexample: the line `  x` while `CAPTURING` matches none of
the five pattern-triggered rules, yet processing it changes the buffer
(rule 6 appends the trimmed line), so the machine is not left
unchanged. -/
theorem C9_counterexample :
    matchesNoRule "  x" true = true ∧ (process_line "  x" true "abc").2.1 ≠ "abc" := by
  refine ⟨by decide, by decide⟩

/-- C9 (amended): a line matching none of the five pattern-triggered
rules leaves the state unchanged and emits nothing; the buffer is
unchanged when `NOT_CAPTURING`, while when `CAPTURING` the trimmed line
is appended to the buffer (the accumulate rule). -/
theorem C9_amended (line : String) (cap : Bool) (buf : String)
    (h : matchesNoRule line cap = true) :
    process_line line cap buf =
      (cap, (if cap then buf ++ pyStrip line else buf), none) := by
  rw [matchesNoRule] at h
  simp only [Bool.and_eq_true, Bool.not_eq_true'] at h
  obtain ⟨⟨⟨⟨hj, ha⟩, he⟩, ht⟩, hb⟩ := h
  cases cap with
  | false =>
    have ha' : actionMessageMatch line = false := by simpa using ha
    simp [process_line, hj, ha']
  | true =>
    have he' : strEndsWith (pyStrip line) "\x7d." = false := by simpa using he
    have hb' : strStartsWith line "[" = false := by simpa using hb
    simp [process_line, hj, he', ht, hb']

/-- C9 witness: the amended theorem at the concrete accumulate line. -/
theorem C9_witness :
    process_line "  x" true "abc" =
      (true, (if true then "abc" ++ pyStrip "  x" else "abc"), none) :=
  C9_amended "  x" true "abc" (by decide)

/-! ### Claim C10 -/

/-- C10: a `map` pair whose key and value both expose a `lit` entry but
where one of the two literals is falsy (empty string, 0, false — here:
any pair whose two literals are not both truthy) is excluded from
`extract_lit_items`' result: the extraction over a map containing the
pair equals the extraction over the same map without it. -/
theorem C10_theorem (pre post : List JsonVal) (item kObj vObj k v : JsonVal)
    (hk : pySub item "key" = some kObj) (hkl : pyGetOpt kObj "lit" = some (some k))
    (hv : pySub item "value" = some vObj) (hvl : pyGetOpt vObj "lit" = some (some v))
    (hfalsy : (truthy k && truthy v) = false) :
    extract_lit_items (JsonVal.obj [("map", JsonVal.arr (pre ++ item :: post))]) =
      extract_lit_items (JsonVal.obj [("map", JsonVal.arr (pre ++ post))]) :=
  litFold_skip item kObj vObj k v hk hkl hv hvl hfalsy pre post []

/-- C10 witness: a pair whose key literal is the falsy `""` (and whose
value literal is truthy) contributes nothing. -/
theorem C10_witness :
    extract_lit_items (JsonVal.obj [("map", JsonVal.arr [falsyItem])]) =
      extract_lit_items (JsonVal.obj [("map", JsonVal.arr [])]) :=
  C10_theorem [] [] falsyItem (JsonVal.obj [("lit", JsonVal.str "")])
    (JsonVal.obj [("lit", JsonVal.str "v")]) (JsonVal.str "") (JsonVal.str "v")
    (by decide) (by decide) (by decide) (by decide) (by decide)

end LogExtractor
